import Mathlib

/-!
Verification of the kick-out pane-search-and-relocation state machine.

The Rust source (src/main.rs) is shallowly embedded below: Rust `String`
becomes `Str := List Char`, the `HashMap` of panes becomes an association
list in one admissible iteration order, the zellij `Text` value becomes its
content together with the list of accumulated `color_range` annotations,
and the host calls `break_panes_to_new_tab` / `break_panes_to_tab_with_index`
become `HostRequest` values collected by the event-transition function.
-/

namespace KickOut

/-- Rust strings are modelled as their sequences of characters. -/
abbrev Str := List Char

/-- UTF-8 byte size of one character, as Rust byte offsets count it. -/
def charBytes (c : Char) : Nat :=
  if c.toNat ≤ 0x7F then 1
  else if c.toNat ≤ 0x7FF then 2
  else if c.toNat ≤ 0xFFFF then 3
  else 4

/-- UTF-8 byte length of a string. -/
def byteLen : Str → Nat
  | [] => 0
  | c :: cs => charBytes c + byteLen cs

/-- Per-character model of Rust `str::to_lowercase` on one char: ASCII
uppercase letters are lowered, all other characters are kept.  (This agrees
with Rust on every ASCII character and on every character whose Unicode
lowercase form is itself; the exotic one-to-many foldings are not used by
any statement below.) -/
def lowerChar (c : Char) : Char :=
  if 65 ≤ c.toNat ∧ c.toNat ≤ 90 then Char.ofNat (c.toNat + 32) else c

/-- Model of Rust `str::to_lowercase`. -/
def toLowercase (s : Str) : Str := s.map lowerChar

/-- Does `pat` occur right at the head of `hay`?  This models the pattern
matching at one position during `str::match_indices`. -/
def leadsWith : Str → Str → Bool
  | [], _ => true
  | _ :: _, [] => false
  | p :: ps, h :: hs => if p = h then leadsWith ps hs else false

/-- Worker for `match_indices`: `pos` is the byte offset of the head of the
remaining haystack, `skip` the number of characters still to consume from a
match already reported (Rust reports non-overlapping matches, left to
right).  An empty pattern matches at every character boundary, the final
one included, exactly as in Rust. -/
def matchIndicesAux (pat : Str) : Str → Nat → Nat → List Nat
  | [], pos, skip => if pat = [] ∧ skip = 0 then [pos] else []
  | c :: rest, pos, skip =>
    if skip ≠ 0 then
      matchIndicesAux pat rest (pos + charBytes c) (skip - 1)
    else if pat = [] then
      pos :: matchIndicesAux pat rest (pos + charBytes c) 0
    else if leadsWith pat (c :: rest) then
      pos :: matchIndicesAux pat rest (pos + charBytes c) (pat.length - 1)
    else
      matchIndicesAux pat rest (pos + charBytes c) 0

/-- Model of Rust `hay.match_indices(pat)` restricted to the reported byte
offsets (the source discards the matched substrings). -/
def match_indices (hay pat : Str) : List Nat := matchIndicesAux pat hay 0 0

/-- Plain substring occurrence (case already folded by the caller); this is
the specification-side notion of "occurs as a substring". -/
def occursWithin : Str → Str → Bool
  | pat, [] => pat.isEmpty
  | pat, c :: rest => leadsWith pat (c :: rest) || occursWithin pat rest

/-- `PaneId` from `zellij_tile`: a terminal or a plugin pane id. -/
inductive PaneId where
  | Terminal (id : Nat)
  | Plugin (id : Nat)
deriving DecidableEq

/-- Hashable pane key: numeric id plus the plugin discriminant. -/
structure PaneIdHashable where
  pane_id : Nat
  is_plugin : Bool
deriving DecidableEq

/-- The `Into<PaneId>` conversion of the source. -/
def PaneIdHashable.toPaneId (p : PaneIdHashable) : PaneId :=
  if p.is_plugin then PaneId.Plugin p.pane_id else PaneId.Terminal p.pane_id

/-- One `color_range` annotation on a `Text` value. -/
structure TextRange where
  color : Nat
  start : Nat
  stop : Nat
deriving DecidableEq

/-- zellij `Text`: the content plus the accumulated `color_range` calls. -/
structure Text where
  content : Str
  ranges : List TextRange
deriving DecidableEq

/-- Model of `Text::new`. -/
def Text.new (s : Str) : Text := ⟨s, []⟩

/-- Model of `Text::color_range(color, a..b)`. -/
def Text.color_range (t : Text) (color a b : Nat) : Text :=
  { t with ranges := t.ranges ++ [⟨color, a, b⟩] }

/-- One entry of the current search results (struct `Match`). -/
structure Match where
  pane_id : PaneId
  text : Text
  selected_for_extraction : Bool
deriving DecidableEq

/-- `Match::new`: freshly created matches are not marked. -/
def Match.new (pane_id : PaneId) (text : Text) : Match :=
  { pane_id := pane_id, text := text, selected_for_extraction := false }

/-- `Match::toggle_mark_for_extraction`. -/
def Match.toggle_mark_for_extraction (m : Match) : Match :=
  { m with selected_for_extraction := !m.selected_for_extraction }

/-- The plugin state (struct `State`).  The pane `HashMap` is embedded as an
association list in one admissible iteration order. -/
structure State where
  filter : Str
  tabs : List Str
  panes : List (PaneIdHashable × Str)
  current_matches : List Match
  selected_tab_index : Option Nat
  selected_match_index : Option Nat
deriving DecidableEq

/-- `State::default()`. -/
def initial_state : State := ⟨[], [], [], [], none, none⟩

/-- One entry of a host pane snapshot (the fields of `PaneInfo` read by the
source). -/
structure PaneInfo where
  id : Nat
  is_plugin : Bool
  is_selectable : Bool
  title : Str
deriving DecidableEq

/-- The bare keys the source distinguishes; every other key is `Other`. -/
inductive BareKey where
  | Char (c : Char)
  | Backspace
  | Enter
  | Tab
  | Down
  | Up
  | Left
  | Right
  | Other
deriving DecidableEq

/-- A key event: bare key plus whether the modifier set is empty. -/
structure KeyEvent where
  bare_key : BareKey
  has_no_modifiers : Bool
deriving DecidableEq

/-- The host events the source reacts to. -/
inductive Event where
  | ModeUpdate
  | TabUpdate (names : List Str)
  | PaneUpdate (panes : List PaneInfo)
  | Key (key : KeyEvent)
deriving DecidableEq

/-- The outbound host calls issued by the `Enter` transition. -/
inductive HostRequest where
  | break_panes_to_new_tab (panes : List PaneId) (name : Option Str) (should_focus : Bool)
  | break_panes_to_tab_with_index (panes : List PaneId) (tab_index : Nat) (should_focus : Bool)
deriving DecidableEq

/-- `State::trigger_search`: clear and rebuild `current_matches` from the
filter and the pane map, one fresh `Match` per pane whose lowercased title
contains the lowercased filter, with one `color_range(3, i..i+filter_len)`
call per reported occurrence. -/
def State.trigger_search (s : State) : State :=
  let filter_len := s.filter.length
  let lc_filter := toLowercase s.filter
  { s with current_matches :=
      s.panes.foldl (fun acc pane =>
        let lc_pane_title := toLowercase pane.2
        let ms := match_indices lc_pane_title lc_filter
        if ms ≠ [] then
          acc ++ [Match.new pane.1.toPaneId
            (ms.foldl (fun t match_index =>
              t.color_range 3 match_index (match_index + filter_len)) (Text.new pane.2))]
        else acc) [] }

/-- `State::clear_search`. -/
def State.clear_search (s : State) : State :=
  { s with filter := [], current_matches := [], selected_match_index := none }

/-- `Vec::get_mut(i).map(f)`: apply `f` at index `i` when it is in range,
leave the list unchanged otherwise. -/
def modifyAt {α : Type} : List α → Nat → (α → α) → List α
  | [], _, _ => []
  | x :: xs, 0, f => f x :: xs
  | x :: xs, n + 1, f => x :: modifyAt xs n f

/-- `State::toggle_mark_selected_for_extraction`. -/
def State.toggle_mark_selected_for_extraction (s : State) : State :=
  match s.selected_match_index with
  | some index =>
      { s with current_matches :=
          modifyAt s.current_matches index Match.toggle_mark_for_extraction }
  | none => s

/-- `State::panes_to_extract`: the marked subset, or all matches when
nothing is marked. -/
def State.panes_to_extract (s : State) : List PaneId :=
  let pane_ids_selected_for_extraction :=
    s.current_matches.filterMap
      (fun m => if m.selected_for_extraction then some m.pane_id else none)
  if pane_ids_selected_for_extraction = [] then
    s.current_matches.map (fun m => m.pane_id)
  else
    pane_ids_selected_for_extraction

/-- The `BareKey::Tab` branch of `State::update`: cyclic advance of the
destination cursor over the tab list (with `saturating_sub`). -/
def State.advance_tab_cursor (s : State) : Option Nat :=
  if s.selected_tab_index = none ∧ ¬(s.tabs = []) then some 0
  else if s.selected_tab_index = some (s.tabs.length - 1) then none
  else s.selected_tab_index.map (fun i => i + 1)

/-- The `BareKey::Down` branch: cyclic advance of the selection cursor over
the match list. -/
def State.advance_match_cursor (s : State) : Option Nat :=
  if s.selected_match_index = none ∧ ¬(s.current_matches = []) then some 0
  else if s.selected_match_index = some (s.current_matches.length - 1) then none
  else s.selected_match_index.map (fun i => i + 1)

/-- The `BareKey::Up` branch: cyclic retreat of the selection cursor. -/
def State.retreat_match_cursor (s : State) : Option Nat :=
  if s.selected_match_index = none ∧ ¬(s.current_matches = []) then
    some (s.current_matches.length - 1)
  else if s.selected_match_index = some 0 then none
  else s.selected_match_index.map (fun i => i - 1)

/-- `HashMap::insert` on the association-list embedding: replace the value
of an existing key, append a fresh key at the end. -/
def insertPane (panes : List (PaneIdHashable × Str)) (key : PaneIdHashable) (title : Str) :
    List (PaneIdHashable × Str) :=
  if panes.any (fun e => decide (e.1 = key)) then
    panes.map (fun e => if e.1 = key then (key, title) else e)
  else panes ++ [(key, title)]

/-- The `Event::PaneUpdate` branch: clear the pane map and reinsert every
selectable pane of the manifest (the manifest is flattened; its grouping by
tab is irrelevant to the source, which only inserts). -/
def State.apply_pane_update (s : State) (panes : List PaneInfo) : State :=
  { s with panes := panes.foldl (fun acc p =>
      if p.is_selectable then insertPane acc ⟨p.id, p.is_plugin⟩ p.title
      else acc) [] }

/-- The `Event::Key` branch of `State::update`.  The result is the new
state, the `should_render` flag, and the host calls issued. -/
def State.key_update (s : State) (key : KeyEvent) : State × Bool × List HostRequest :=
  if key.has_no_modifiers then
    match key.bare_key with
    | BareKey.Char c =>
        (State.trigger_search { s with filter := s.filter ++ [c] }, true, [])
    | BareKey.Backspace =>
        let s2 : State := { s with filter := s.filter.dropLast }
        if ¬(s2.filter = []) then (s2.trigger_search, true, [])
        else (s2.clear_search, true, [])
    | BareKey.Enter =>
        if ¬(s.current_matches = []) then
          match s.selected_tab_index with
          | none =>
              (s.clear_search, true,
               [HostRequest.break_panes_to_new_tab s.panes_to_extract (some s.filter) false])
          | some tab_index =>
              (s.clear_search, true,
               [HostRequest.break_panes_to_tab_with_index s.panes_to_extract tab_index false])
        else (s, true, [])
    | BareKey.Tab =>
        ({ s with selected_tab_index := s.advance_tab_cursor }, true, [])
    | BareKey.Down =>
        ({ s with selected_match_index := s.advance_match_cursor }, true, [])
    | BareKey.Up =>
        ({ s with selected_match_index := s.retreat_match_cursor }, true, [])
    | BareKey.Left => (s.toggle_mark_selected_for_extraction, true, [])
    | BareKey.Right => (s.toggle_mark_selected_for_extraction, true, [])
    | BareKey.Other => (s, false, [])
  else (s, false, [])

/-- `State::update`: the full event transition. -/
def State.update (s : State) (e : Event) : State × Bool × List HostRequest :=
  match e with
  | Event.ModeUpdate => (s, false, [])
  | Event.TabUpdate names =>
      let previous_tabs := s.tabs
      let s2 : State := { s with tabs := names }
      if ¬(previous_tabs = s2.tabs) then
        ({ s2 with selected_tab_index := none }, true, [])
      else (s2, true, [])
  | Event.PaneUpdate panes => (s.apply_pane_update panes, false, [])
  | Event.Key key => s.key_update key

/-- Run a sequence of host events from the default state. -/
def run_events (events : List Event) : State :=
  events.foldl (fun s e => (s.update e).1) initial_state

/-! ### Characterisation of `trigger_search` -/

/-- The per-pane step of `trigger_search`, packaged as the optional `Match`
it produces. -/
def search_entry (filter : Str) (pane : PaneIdHashable × Str) : Option Match :=
  let ms := match_indices (toLowercase pane.2) (toLowercase filter)
  if ms ≠ [] then
    some (Match.new pane.1.toPaneId
      (ms.foldl (fun t match_index =>
        t.color_range 3 match_index (match_index + filter.length)) (Text.new pane.2)))
  else none

lemma trigger_search_foldl (filter : Str) (panes : List (PaneIdHashable × Str)) :
    ∀ acc : List Match,
      panes.foldl (fun acc pane =>
        let lc_pane_title := toLowercase pane.2
        let ms := match_indices lc_pane_title (toLowercase filter)
        if ms ≠ [] then
          acc ++ [Match.new pane.1.toPaneId
            (ms.foldl (fun t match_index =>
              t.color_range 3 match_index (match_index + filter.length)) (Text.new pane.2))]
        else acc) acc
      = acc ++ panes.filterMap (search_entry filter) := by
  induction panes with
  | nil => intro acc; simp
  | cons p ps ih =>
      intro acc
      simp only [List.foldl_cons, List.filterMap_cons, search_entry]
      by_cases h : match_indices (toLowercase p.2) (toLowercase filter) = []
      · rw [if_neg (not_not_intro h), if_neg (not_not_intro h)]
        exact ih acc
      · rw [if_pos h, if_pos h, ih]
        simp

lemma trigger_search_current_matches (s : State) :
    (s.trigger_search).current_matches = s.panes.filterMap (search_entry s.filter) := by
  simpa [State.trigger_search] using trigger_search_foldl s.filter s.panes []

lemma highlight_foldl_content (n : Nat) (ms : List Nat) :
    ∀ t : Text,
      (ms.foldl (fun t match_index =>
        t.color_range 3 match_index (match_index + n)) t).content = t.content := by
  induction ms with
  | nil => intro t; rfl
  | cons m rest ih => intro t; rw [List.foldl_cons, ih]; rfl

lemma highlight_foldl_ranges (n : Nat) (ms : List Nat) :
    ∀ t : Text,
      (ms.foldl (fun t match_index =>
        t.color_range 3 match_index (match_index + n)) t).ranges
      = t.ranges ++ ms.map (fun i => (⟨3, i, i + n⟩ : TextRange)) := by
  induction ms with
  | nil => intro t; simp
  | cons m rest ih => intro t; rw [List.foldl_cons, ih]; simp [Text.color_range]

/-! ### `match_indices`: non-emptiness is substring occurrence, and every
reported index is the byte offset of a real occurrence -/

lemma occursWithin_nil (pat : Str) (h : pat ≠ []) : occursWithin pat [] = false := by
  cases pat with
  | nil => exact absurd rfl h
  | cons p ps => rfl

lemma matchIndicesAux_ne_nil (pat : Str) (hpat : pat ≠ []) :
    ∀ (hay : Str) (pos : Nat),
      (matchIndicesAux pat hay pos 0 ≠ []) ↔ occursWithin pat hay = true := by
  intro hay
  induction hay with
  | nil =>
      intro pos
      simp [matchIndicesAux, hpat, occursWithin_nil pat hpat]
  | cons c rest ih =>
      intro pos
      by_cases hl : leadsWith pat (c :: rest) = true
      · simp [matchIndicesAux, hpat, hl, occursWithin]
      · simp [matchIndicesAux, hpat, hl, occursWithin, ih]

lemma match_indices_ne_nil (hay pat : Str) (hpat : pat ≠ []) :
    (match_indices hay pat ≠ []) ↔ occursWithin pat hay = true :=
  matchIndicesAux_ne_nil pat hpat hay 0

lemma matchIndicesAux_mem (pat : Str) (hpat : pat ≠ []) :
    ∀ (hay : Str) (pos skip p : Nat), p ∈ matchIndicesAux pat hay pos skip →
      ∃ i, i ≤ hay.length ∧ p = pos + byteLen (hay.take i) ∧
        leadsWith pat (hay.drop i) = true := by
  intro hay
  induction hay with
  | nil =>
      intro pos skip p hp
      simp [matchIndicesAux, hpat] at hp
  | cons c rest ih =>
      intro pos skip p hp
      cases skip with
      | succ sk =>
          simp only [matchIndicesAux, Nat.succ_ne_zero, if_pos, Nat.succ_sub_one] at hp
          obtain ⟨i, hi, hpeq, hl⟩ := ih (pos + charBytes c) sk p hp
          refine ⟨i + 1, by simpa using hi, ?_, by simpa using hl⟩
          simp only [List.take_succ_cons, byteLen]
          omega
      | zero =>
          by_cases hl : leadsWith pat (c :: rest) = true
          · simp [matchIndicesAux, hpat, hl] at hp
            rcases hp with hp | hp
            · exact ⟨0, by simp, by simp [hp, byteLen], by simpa using hl⟩
            · obtain ⟨i, hi, hpeq, hli⟩ := ih (pos + charBytes c) (pat.length - 1) p hp
              refine ⟨i + 1, by simpa using hi, ?_, by simpa using hli⟩
              simp only [List.take_succ_cons, byteLen]
              omega
          · simp [matchIndicesAux, hpat, hl] at hp
            obtain ⟨i, hi, hpeq, hli⟩ := ih (pos + charBytes c) 0 p hp
            refine ⟨i + 1, by simpa using hi, ?_, by simpa using hli⟩
            simp only [List.take_succ_cons, byteLen]
            omega

lemma match_indices_mem (hay pat : Str) (hpat : pat ≠ []) (p : Nat)
    (hp : p ∈ match_indices hay pat) :
    ∃ i, i ≤ hay.length ∧ p = byteLen (hay.take i) ∧
      leadsWith pat (hay.drop i) = true := by
  obtain ⟨i, hi, hpeq, hl⟩ := matchIndicesAux_mem pat hpat hay 0 0 p hp
  exact ⟨i, hi, by omega, hl⟩

/-! ### Small list helpers -/

lemma filterMap_if_eq_filter_map {α β : Type} (p : α → Bool) (f : α → β) (l : List α) :
    l.filterMap (fun x => if p x then some (f x) else none) = (l.filter p).map f := by
  induction l with
  | nil => rfl
  | cons x xs ih => by_cases h : p x = true <;> simp [h, ih]

lemma modifyAt_of_length_le {α : Type} :
    ∀ (l : List α) (n : Nat) (f : α → α), l.length ≤ n → modifyAt l n f = l := by
  intro l
  induction l with
  | nil => intro n f _; cases n <;> rfl
  | cons x xs ih =>
      intro n f h
      cases n with
      | zero => simp at h
      | succ m => simp [modifyAt, ih m f (by simpa using h)]

/-! ### The cyclic cursor-stepping policy -/

/-- The tri-state cyclic advance over a list of length `n`, common to the
`Tab` and `Down` branches of the source. -/
def cycle_advance (n : Nat) (c : Option Nat) : Option Nat :=
  if c = none ∧ n ≠ 0 then some 0
  else if c = some (n - 1) then none
  else c.map (fun i => i + 1)

lemma advance_tab_cursor_eq (s : State) :
    s.advance_tab_cursor = cycle_advance s.tabs.length s.selected_tab_index := by
  unfold State.advance_tab_cursor cycle_advance
  cases h : s.tabs with
  | nil => simp [h]
  | cons a l => simp [h]

lemma advance_match_cursor_eq (s : State) :
    s.advance_match_cursor = cycle_advance s.current_matches.length s.selected_match_index := by
  unfold State.advance_match_cursor cycle_advance
  cases h : s.current_matches with
  | nil => simp [h]
  | cons a l => simp [h]

/-- Pressing `Tab` with no modifiers, as a map on states. -/
def step_tab (s : State) : State := (s.update (Event.Key ⟨BareKey.Tab, true⟩)).1

/-- Pressing `Down` with no modifiers, as a map on states. -/
def step_down (s : State) : State := (s.update (Event.Key ⟨BareKey.Down, true⟩)).1

lemma step_tab_eq (s : State) :
    step_tab s =
      { s with selected_tab_index := cycle_advance s.tabs.length s.selected_tab_index } := by
  show { s with selected_tab_index := s.advance_tab_cursor } = _
  rw [advance_tab_cursor_eq]

lemma step_down_eq (s : State) :
    step_down s =
      { s with selected_match_index :=
          cycle_advance s.current_matches.length s.selected_match_index } := by
  show { s with selected_match_index := s.advance_match_cursor } = _
  rw [advance_match_cursor_eq]

lemma step_tab_iterate (s : State) :
    ∀ k, step_tab^[k] s =
      { s with selected_tab_index :=
          (cycle_advance s.tabs.length)^[k] s.selected_tab_index } := by
  intro k
  induction k with
  | zero => rfl
  | succ k ih =>
      rw [Function.iterate_succ_apply', Function.iterate_succ_apply', ih, step_tab_eq]

lemma step_down_iterate (s : State) :
    ∀ k, step_down^[k] s =
      { s with selected_match_index :=
          (cycle_advance s.current_matches.length)^[k] s.selected_match_index } := by
  intro k
  induction k with
  | zero => rfl
  | succ k ih =>
      rw [Function.iterate_succ_apply', Function.iterate_succ_apply', ih, step_down_eq]

lemma cycle_advance_visits (n : Nat) :
    ∀ k, k < n → (cycle_advance n)^[k + 1] (none : Option Nat) = some k := by
  intro k
  induction k with
  | zero =>
      intro h
      have hn : n ≠ 0 := by omega
      show cycle_advance n none = some 0
      simp [cycle_advance, hn]
  | succ k ih =>
      intro h
      rw [Function.iterate_succ_apply', ih (by omega)]
      have h2 : k ≠ n - 1 := by omega
      simp [cycle_advance, h2]

lemma cycle_advance_zero_iter : ∀ m, (cycle_advance 0)^[m] (none : Option Nat) = none := by
  intro m
  induction m with
  | zero => rfl
  | succ m ih => rw [Function.iterate_succ_apply', ih]; simp [cycle_advance]

lemma cycle_advance_closes (n : Nat) :
    (cycle_advance n)^[n + 1] (none : Option Nat) = none := by
  cases n with
  | zero => exact cycle_advance_zero_iter 1
  | succ m =>
      rw [Function.iterate_succ_apply', cycle_advance_visits (m + 1) m (by omega)]
      simp [cycle_advance]

/-! ### Claim C1 -/

/-- The cursor validity invariant stated by the claim: `None`, or an
in-range index. -/
def cursorValid (c : Option Nat) (n : Nat) : Prop :=
  match c with
  | none => True
  | some i => i < n

instance (c : Option Nat) (n : Nat) : Decidable (cursorValid c n) :=
  match c with
  | none => isTrue trivial
  | some i => Nat.decLt i n

/-- Two panes titled "aa"/"ab", filter "a", the cursor moved onto the second
match, then a keystroke that rebuilds the match list down to nothing. -/
def c1_events : List Event :=
  [Event.PaneUpdate [⟨1, false, true, "aa".toList⟩, ⟨2, false, true, "ab".toList⟩],
   Event.Key ⟨BareKey.Char 'a', true⟩,
   Event.Key ⟨BareKey.Down, true⟩,
   Event.Key ⟨BareKey.Down, true⟩,
   Event.Key ⟨BareKey.Char 'x', true⟩]

/-- C1 counterexample: after the final filter keystroke rebuilds the match
list, the Selection Cursor is `some 1` while the match list is empty, so it
is neither `None` nor in range — the invariant fails for this event
sequence. -/
theorem claim_C1_counterexample :
    ¬ cursorValid (run_events c1_events).selected_match_index
        (run_events c1_events).current_matches.length := by decide

/-- C1 (amended): a rebuild of the match list by a filter keystroke leaves
the Selection Cursor unchanged — `trigger_search` does not re-validate it
against the new list, so it can be left out of range; the cursor is reset
to `None` only by `clear_search`. -/
theorem claim_C1_amended (s : State) (c : Char) :
    ((s.update (Event.Key ⟨BareKey.Char c, true⟩)).1).selected_match_index
        = s.selected_match_index ∧
    (s.trigger_search).selected_match_index = s.selected_match_index ∧
    (s.clear_search).selected_match_index = none :=
  ⟨rfl, rfl, rfl⟩

/-! ### Claim C2 -/

/-- A match list "includes the pane" of an inventory entry when some match
carries the entry's identity and title. -/
def pane_in_matches (ms : List Match) (id : PaneIdHashable) (title : Str) : Bool :=
  ms.any (fun m => decide (m.pane_id = id.toPaneId ∧ m.text.content = title))

def c2_state : State := { initial_state with panes := [(⟨1, false⟩, ['x'])] }

/-- C2 counterexample: recomputing with the empty filter includes the pane
(the empty pattern matches inside every title), whereas the claim requires
a pane to be included only when the filter is non-empty. -/
theorem claim_C2_counterexample :
    c2_state.filter = [] ∧
    pane_in_matches (c2_state.trigger_search).current_matches ⟨1, false⟩ ['x'] = true := by
  decide

/-- C2 (amended): for every non-empty filter, recomputing matches includes
an inventory pane iff the lowercased filter occurs as a substring of the
lowercased title.  (With an empty filter the raw recompute includes every
pane; the input router never triggers a search on an empty filter.) -/
theorem claim_C2_amended (s : State) (id : PaneIdHashable) (title : Str)
    (hf : s.filter ≠ []) (hmem : (id, title) ∈ s.panes) :
    pane_in_matches (s.trigger_search).current_matches id title
      = occursWithin (toLowercase s.filter) (toLowercase title) := by
  have hlc : toLowercase s.filter ≠ [] := fun h => hf (List.map_eq_nil_iff.mp h)
  unfold pane_in_matches
  cases hocc : occursWithin (toLowercase s.filter) (toLowercase title) with
  | true =>
      apply List.any_eq_true.mpr
      have hne : match_indices (toLowercase title) (toLowercase s.filter) ≠ [] :=
        (match_indices_ne_nil _ _ hlc).mpr hocc
      refine ⟨Match.new id.toPaneId
        ((match_indices (toLowercase title) (toLowercase s.filter)).foldl
          (fun t match_index =>
            t.color_range 3 match_index (match_index + s.filter.length))
          (Text.new title)), ?_, ?_⟩
      · rw [trigger_search_current_matches]
        exact List.mem_filterMap.mpr ⟨(id, title), hmem, by simp [search_entry, hne]⟩
      · simp [Match.new, highlight_foldl_content, Text.new]
  | false =>
      apply List.any_eq_false.mpr
      intro m hm
      rw [trigger_search_current_matches] at hm
      obtain ⟨a, ha, hsome⟩ := List.mem_filterMap.mp hm
      simp only [search_entry] at hsome
      by_cases hc : match_indices (toLowercase a.2) (toLowercase s.filter) ≠ []
      · rw [if_pos hc] at hsome
        have hm2 : m = Match.new a.1.toPaneId
            ((match_indices (toLowercase a.2) (toLowercase s.filter)).foldl
              (fun t match_index =>
                t.color_range 3 match_index (match_index + s.filter.length))
              (Text.new a.2)) := (Option.some.inj hsome).symm
        simp only [decide_eq_true_eq, not_and]
        intro _ hcontent
        have ht : a.2 = title := by
          have := hcontent
          rw [hm2] at this
          simpa [Match.new, highlight_foldl_content, Text.new] using this
        have : occursWithin (toLowercase s.filter) (toLowercase title) = true :=
          (match_indices_ne_nil _ _ hlc).mp (by rwa [ht] at hc)
        simp [hocc] at this
      · rw [if_neg hc] at hsome
        simp at hsome

def c2w_state : State :=
  { initial_state with filter := "b".toList, panes := [(⟨1, false⟩, "ab".toList)] }

theorem claim_C2_witness :
    pane_in_matches (c2w_state.trigger_search).current_matches ⟨1, false⟩ "ab".toList
      = occursWithin (toLowercase c2w_state.filter) (toLowercase "ab".toList) :=
  claim_C2_amended c2w_state ⟨1, false⟩ "ab".toList (by decide) (by decide)

/-! ### Claim C3 -/

def enter_key : Event := Event.Key ⟨BareKey.Enter, true⟩

/-- C3: Enter with no modifiers and a non-empty match list issues exactly
one relocation request — create-new-tab-named-after-the-filter when the
Destination Cursor is `None`, move-to-that-index otherwise — and clears the
filter, the match list and the Selection Cursor, while the Destination
Cursor, tabs and panes are unchanged; with an empty match list Enter issues
no request and changes no state. -/
theorem claim_C3 (s : State) :
    (s.current_matches ≠ [] →
      (s.selected_tab_index = none →
        (s.update enter_key).2.2 =
          [HostRequest.break_panes_to_new_tab s.panes_to_extract (some s.filter) false]) ∧
      (∀ i, s.selected_tab_index = some i →
        (s.update enter_key).2.2 =
          [HostRequest.break_panes_to_tab_with_index s.panes_to_extract i false]) ∧
      (s.update enter_key).1.filter = [] ∧
      (s.update enter_key).1.current_matches = [] ∧
      (s.update enter_key).1.selected_match_index = none ∧
      (s.update enter_key).1.selected_tab_index = s.selected_tab_index ∧
      (s.update enter_key).1.tabs = s.tabs ∧
      (s.update enter_key).1.panes = s.panes) ∧
    (s.current_matches = [] →
      (s.update enter_key).1 = s ∧ (s.update enter_key).2.2 = []) := by
  have hred : s.update enter_key =
      (if ¬(s.current_matches = []) then
        match s.selected_tab_index with
        | none =>
            (s.clear_search, true,
             [HostRequest.break_panes_to_new_tab s.panes_to_extract (some s.filter) false])
        | some tab_index =>
            (s.clear_search, true,
             [HostRequest.break_panes_to_tab_with_index s.panes_to_extract tab_index false])
      else (s, true, [])) := rfl
  constructor
  · intro hne
    rw [hred, if_pos hne]
    cases hsel : s.selected_tab_index with
    | none =>
        refine ⟨fun _ => rfl, fun i hi => Option.noConfusion hi, rfl, rfl, rfl, ?_, rfl, rfl⟩
        exact hsel
    | some j =>
        refine ⟨fun h0 => Option.noConfusion h0, fun i hi => ?_, rfl, rfl, rfl, ?_, rfl, rfl⟩
        · injection hi with h
          subst h
          rfl
        · exact hsel
  · intro hemp
    rw [hred, if_neg (not_not_intro hemp)]
    exact ⟨rfl, rfl⟩

def c3_state : State :=
  { initial_state with
      filter := "ch".toList
      current_matches := [Match.new (PaneId.Terminal 2) (Text.new "chat".toList)] }

theorem claim_C3_witness :
    (c3_state.update enter_key).2.2 =
      [HostRequest.break_panes_to_new_tab c3_state.panes_to_extract
        (some c3_state.filter) false] :=
  ((claim_C3 c3_state).1 (by decide)).1 rfl

/-! ### Claim C4 -/

/-- C4: `panes_to_extract` returns exactly the marked matches' identities
when some match is marked, and every match's identity when none is. -/
theorem claim_C4 (s : State) :
    ((∃ m ∈ s.current_matches, m.selected_for_extraction = true) →
      s.panes_to_extract =
        (s.current_matches.filter (fun m => m.selected_for_extraction)).map
          (fun m => m.pane_id)) ∧
    ((∀ m ∈ s.current_matches, m.selected_for_extraction = false) →
      s.panes_to_extract = s.current_matches.map (fun m => m.pane_id)) := by
  have hfm : s.current_matches.filterMap
        (fun m => if m.selected_for_extraction then some m.pane_id else none)
      = (s.current_matches.filter (fun m => m.selected_for_extraction)).map
          (fun m => m.pane_id) :=
    filterMap_if_eq_filter_map _ _ _
  constructor
  · rintro ⟨m, hm, hsel⟩
    have hne : s.current_matches.filter (fun m => m.selected_for_extraction) ≠ [] :=
      List.ne_nil_of_mem (List.mem_filter.mpr ⟨hm, hsel⟩)
    simp only [State.panes_to_extract, hfm]
    rw [if_neg (fun h => hne (List.map_eq_nil_iff.mp h))]
  · intro hall
    have hq : s.current_matches.filter (fun m => m.selected_for_extraction) = [] :=
      List.filter_eq_nil_iff.mpr (fun m hm => by simp [hall m hm])
    simp only [State.panes_to_extract, hfm, hq]
    simp

def c4_state : State :=
  { initial_state with current_matches :=
      [{ pane_id := PaneId.Terminal 1, text := Text.new "a".toList,
         selected_for_extraction := true },
       Match.new (PaneId.Terminal 2) (Text.new "b".toList)] }

theorem claim_C4_witness :
    c4_state.panes_to_extract =
      (c4_state.current_matches.filter (fun m => m.selected_for_extraction)).map
        (fun m => m.pane_id) :=
  (claim_C4 c4_state).1 (by decide)

/-! ### Claim C5 -/

/-- C5: starting from `None`, both cursors cycle: the advance visits
`some 0 … some (N−1)` in order and is back to `None` after exactly `N+1`
advances; with `N = 0` every advance leaves the cursor at `None`.  Here the
Destination Cursor is advanced by the Tab key over the tab count and the
Selection Cursor by the Down key over the match count. -/
theorem claim_C5 (s : State) :
    (s.selected_tab_index = none →
      (step_tab^[s.tabs.length + 1] s).selected_tab_index = none ∧
      (∀ k, k < s.tabs.length → (step_tab^[k + 1] s).selected_tab_index = some k) ∧
      (s.tabs.length = 0 → ∀ m, (step_tab^[m] s).selected_tab_index = none)) ∧
    (s.selected_match_index = none →
      (step_down^[s.current_matches.length + 1] s).selected_match_index = none ∧
      (∀ k, k < s.current_matches.length →
        (step_down^[k + 1] s).selected_match_index = some k) ∧
      (s.current_matches.length = 0 →
        ∀ m, (step_down^[m] s).selected_match_index = none)) := by
  constructor
  · intro h0
    refine ⟨?_, ?_, ?_⟩
    · rw [step_tab_iterate]
      show (cycle_advance s.tabs.length)^[s.tabs.length + 1] s.selected_tab_index = none
      rw [h0]
      exact cycle_advance_closes _
    · intro k hk
      rw [step_tab_iterate]
      show (cycle_advance s.tabs.length)^[k + 1] s.selected_tab_index = some k
      rw [h0]
      exact cycle_advance_visits _ k hk
    · intro hlen m
      rw [step_tab_iterate]
      show (cycle_advance s.tabs.length)^[m] s.selected_tab_index = none
      rw [h0, hlen]
      exact cycle_advance_zero_iter m
  · intro h0
    refine ⟨?_, ?_, ?_⟩
    · rw [step_down_iterate]
      show (cycle_advance s.current_matches.length)^[s.current_matches.length + 1]
          s.selected_match_index = none
      rw [h0]
      exact cycle_advance_closes _
    · intro k hk
      rw [step_down_iterate]
      show (cycle_advance s.current_matches.length)^[k + 1] s.selected_match_index = some k
      rw [h0]
      exact cycle_advance_visits _ k hk
    · intro hlen m
      rw [step_down_iterate]
      show (cycle_advance s.current_matches.length)^[m] s.selected_match_index = none
      rw [h0, hlen]
      exact cycle_advance_zero_iter m

def c5_state : State :=
  { initial_state with
      tabs := ["a".toList, "b".toList, "c".toList]
      current_matches := [Match.new (PaneId.Terminal 1) (Text.new "t".toList)] }

theorem claim_C5_witness :
    (step_tab^[2] c5_state).selected_tab_index = some 1 ∧
    (step_tab^[4] c5_state).selected_tab_index = none :=
  ⟨((claim_C5 c5_state).1 rfl).2.1 1 (by decide), ((claim_C5 c5_state).1 rfl).1⟩

/-! ### Claim C6 -/

/-- Spec-side definition, following the claim's words: the character-index
start offsets of every occurrence of `pat` in `hay`. -/
def charOccurrences (hay pat : Str) : List Nat :=
  (List.range (hay.length + 1)).filter (fun i => leadsWith pat (hay.drop i))

/-- Spec-side definition, following the claim's words: one highlighted
range per occurrence, starting at the occurrence's character-index offset,
of length equal to the filter's character length. -/
def claimedHighlightRanges (title filter : Str) : List TextRange :=
  (charOccurrences (toLowercase title) (toLowercase filter)).map
    (fun i => ⟨3, i, i + filter.length⟩)

def c6_state : State :=
  { initial_state with
      filter := "bc".toList
      panes := [(⟨1, false⟩, "xäbc".toList)] }

/-- C6 counterexample: with title "xäbc" and filter "bc" the code records
the range 3..5 — a byte offset into the lowercased title plus the filter's
character length — while the claim predicts the character-index range 2..4;
the produced highlighted ranges differ from the claimed ones. -/
theorem claim_C6_counterexample :
    ((c6_state.trigger_search).current_matches.map (fun m => m.text.ranges))
        = [[⟨3, 3, 5⟩]] ∧
    claimedHighlightRanges "xäbc".toList "bc".toList = [⟨3, 2, 4⟩] ∧
    ¬ ((c6_state.trigger_search).current_matches.map (fun m => m.text.ranges)
        = [claimedHighlightRanges "xäbc".toList "bc".toList]) := by decide

/-- C6 (amended): for a non-empty filter, every recomputed match highlights
exactly the non-overlapping left-to-right occurrences reported by
`match_indices` on the lowercased title: each range starts at the byte
offset of a real occurrence of the lowercased filter and ends at that byte
offset plus the filter's character length. -/
theorem claim_C6_amended (s : State) (hf : s.filter ≠ []) :
    ∀ m ∈ (s.trigger_search).current_matches,
      ∃ pid title, (pid, title) ∈ s.panes ∧ m.text.content = title ∧
        m.text.ranges =
          (match_indices (toLowercase title) (toLowercase s.filter)).map
            (fun p => ⟨3, p, p + s.filter.length⟩) ∧
        ∀ r ∈ m.text.ranges, ∃ i, i ≤ (toLowercase title).length ∧
          r.start = byteLen ((toLowercase title).take i) ∧
          leadsWith (toLowercase s.filter) ((toLowercase title).drop i) = true ∧
          r.stop = r.start + s.filter.length := by
  have hlc : toLowercase s.filter ≠ [] := fun h => hf (List.map_eq_nil_iff.mp h)
  intro m hm
  rw [trigger_search_current_matches] at hm
  obtain ⟨a, ha, hsome⟩ := List.mem_filterMap.mp hm
  simp only [search_entry] at hsome
  by_cases hc : match_indices (toLowercase a.2) (toLowercase s.filter) ≠ []
  · rw [if_pos hc] at hsome
    obtain rfl := Option.some.inj hsome
    have hranges : (Match.new a.1.toPaneId
        ((match_indices (toLowercase a.2) (toLowercase s.filter)).foldl
          (fun t match_index =>
            t.color_range 3 match_index (match_index + s.filter.length))
          (Text.new a.2))).text.ranges =
        (match_indices (toLowercase a.2) (toLowercase s.filter)).map
          (fun p => (⟨3, p, p + s.filter.length⟩ : TextRange)) := by
      show ((match_indices (toLowercase a.2) (toLowercase s.filter)).foldl
        (fun t match_index =>
          t.color_range 3 match_index (match_index + s.filter.length))
        (Text.new a.2)).ranges = _
      rw [highlight_foldl_ranges]
      simp [Text.new]
    refine ⟨a.1, a.2, ha, ?_, hranges, ?_⟩
    · simp [Match.new, highlight_foldl_content, Text.new]
    · intro r hr
      rw [hranges] at hr
      obtain ⟨p, hp, rfl⟩ := List.mem_map.mp hr
      obtain ⟨i, hi, hpe, hl⟩ :=
        match_indices_mem (toLowercase a.2) (toLowercase s.filter) hlc p hp
      exact ⟨i, hi, hpe, hl, rfl⟩
  · rw [if_neg hc] at hsome
    exact absurd hsome (by simp)

def c6w_state : State :=
  { initial_state with
      filter := "b".toList
      panes := [(⟨1, false⟩, "ab".toList)] }

def c6w_match : Match := Match.new (PaneId.Terminal 1) ⟨"ab".toList, [⟨3, 1, 2⟩]⟩

theorem claim_C6_witness :
    ∃ pid title, (pid, title) ∈ c6w_state.panes ∧ c6w_match.text.content = title ∧
      c6w_match.text.ranges =
        (match_indices (toLowercase title) (toLowercase c6w_state.filter)).map
          (fun p => ⟨3, p, p + c6w_state.filter.length⟩) ∧
      ∀ r ∈ c6w_match.text.ranges, ∃ i, i ≤ (toLowercase title).length ∧
        r.start = byteLen ((toLowercase title).take i) ∧
        leadsWith (toLowercase c6w_state.filter) ((toLowercase title).drop i) = true ∧
        r.stop = r.start + c6w_state.filter.length :=
  claim_C6_amended c6w_state (by decide) c6w_match (by decide)

/-! ### Claim C7 -/

/-- C7: recomputing is a function of the filter and the pane inventory
alone (so recomputing twice with the same filter and inventory yields the
same match list, and recomputing is idempotent), and every match in a
freshly recomputed list is unmarked. -/
theorem claim_C7 (s t : State) (hf : s.filter = t.filter) (hp : s.panes = t.panes) :
    (s.trigger_search).current_matches = (t.trigger_search).current_matches ∧
    ((s.trigger_search).trigger_search).current_matches = (s.trigger_search).current_matches ∧
    (∀ m ∈ (s.trigger_search).current_matches, m.selected_for_extraction = false) := by
  have key : ∀ u v : State, u.filter = v.filter → u.panes = v.panes →
      (u.trigger_search).current_matches = (v.trigger_search).current_matches := by
    intro u v h1 h2
    rw [trigger_search_current_matches, trigger_search_current_matches, h1, h2]
  refine ⟨key s t hf hp, key s.trigger_search s rfl rfl, ?_⟩
  intro m hm
  rw [trigger_search_current_matches] at hm
  obtain ⟨a, ha, hsome⟩ := List.mem_filterMap.mp hm
  simp only [search_entry] at hsome
  by_cases hc : match_indices (toLowercase a.2) (toLowercase s.filter) ≠ []
  · rw [if_pos hc] at hsome
    obtain rfl := Option.some.inj hsome
    rfl
  · rw [if_neg hc] at hsome
    exact absurd hsome (by simp)

def c7_state_a : State :=
  { initial_state with
      filter := "a".toList
      panes := [(⟨1, false⟩, "abc".toList)]
      selected_match_index := some 7 }

def c7_state_b : State :=
  { initial_state with
      filter := "a".toList
      panes := [(⟨1, false⟩, "abc".toList)]
      current_matches :=
        [{ pane_id := PaneId.Terminal 9, text := Text.new "zz".toList,
           selected_for_extraction := true }] }

theorem claim_C7_witness :
    (c7_state_a.trigger_search).current_matches
      = (c7_state_b.trigger_search).current_matches :=
  (claim_C7 c7_state_a c7_state_b rfl rfl).1

/-! ### Claim C8 -/

/-- C8: a tab snapshot replaces the tab list wholesale; the Destination
Cursor is forced to `None` exactly when the new name sequence differs from
the old one (otherwise it is preserved); filter, matches, Selection Cursor
and panes are untouched, and no request is issued. -/
theorem claim_C8 (s : State) (names : List Str) :
    (s.update (Event.TabUpdate names)).1.tabs = names ∧
    (s.update (Event.TabUpdate names)).1.selected_tab_index =
      (if s.tabs = names then s.selected_tab_index else none) ∧
    (s.update (Event.TabUpdate names)).1.filter = s.filter ∧
    (s.update (Event.TabUpdate names)).1.current_matches = s.current_matches ∧
    (s.update (Event.TabUpdate names)).1.selected_match_index = s.selected_match_index ∧
    (s.update (Event.TabUpdate names)).1.panes = s.panes ∧
    (s.update (Event.TabUpdate names)).2.2 = [] := by
  have hred : s.update (Event.TabUpdate names) =
      (if ¬(s.tabs = names) then
        ({ s with tabs := names, selected_tab_index := none }, true, [])
      else ({ s with tabs := names }, true, [])) := rfl
  by_cases h : s.tabs = names
  · rw [hred, if_neg (not_not_intro h)]
    exact ⟨rfl, by rw [if_pos h], rfl, rfl, rfl, rfl, rfl⟩
  · rw [hred, if_pos h]
    exact ⟨rfl, by rw [if_neg h], rfl, rfl, rfl, rfl, rfl⟩

/-! ### Claim C9 -/

/-- C9 counterexample: pressing Enter with an empty match list is a no-op
for the state and issues no request, but the code still reports "needs
redraw" — the claim predicts no redraw for this branch. -/
theorem claim_C9_counterexample :
    initial_state.current_matches = [] ∧
    (initial_state.update (Event.Key ⟨BareKey.Enter, true⟩)).2.1 = true := by decide

/-- C9 (amended): the transition reports no redraw exactly for the keys
with modifiers and the unmapped keys; every other branch — Enter with an
empty match list included — reports "needs redraw". -/
theorem claim_C9_amended (s : State) (k : KeyEvent) :
    ((s.update (Event.Key k)).2.1 = false ↔
      (k.has_no_modifiers = false ∨ k.bare_key = BareKey.Other)) := by
  obtain ⟨bk, nm⟩ := k
  cases nm
  · simp [State.update, State.key_update]
  · cases bk with
    | Char c => simp [State.update, State.key_update]
    | Backspace =>
        by_cases hb : s.filter.dropLast = [] <;>
          simp [State.update, State.key_update, hb]
    | Enter =>
        cases hsel : s.selected_tab_index <;>
          by_cases hm : s.current_matches = [] <;>
            simp [State.update, State.key_update, hsel, hm]
    | Tab => simp [State.update, State.key_update]
    | Down => simp [State.update, State.key_update]
    | Up => simp [State.update, State.key_update]
    | Left => simp [State.update, State.key_update]
    | Right => simp [State.update, State.key_update]
    | Other => simp [State.update, State.key_update]

/-! ### Claim C10 -/

/-- C10: toggling the mark at the Selection Cursor is total; with the
cursor `None` or pointing out of range of the current match list it is a
silent no-op leaving the whole state unchanged, so no cursor value causes
an out-of-range access. -/
theorem claim_C10 (s : State) :
    (s.selected_match_index = none → s.toggle_mark_selected_for_extraction = s) ∧
    (∀ i, s.selected_match_index = some i → s.current_matches.length ≤ i →
      s.toggle_mark_selected_for_extraction = s) := by
  constructor
  · intro h
    unfold State.toggle_mark_selected_for_extraction
    rw [h]
  · intro i hi hlen
    have hstep : s.toggle_mark_selected_for_extraction =
        { s with current_matches :=
            modifyAt s.current_matches i Match.toggle_mark_for_extraction } := by
      unfold State.toggle_mark_selected_for_extraction
      rw [hi]
    rw [hstep, modifyAt_of_length_le s.current_matches i _ hlen]

def c10_state : State := { initial_state with selected_match_index := some 5 }

theorem claim_C10_witness :
    c10_state.toggle_mark_selected_for_extraction = c10_state :=
  (claim_C10 c10_state).2 5 rfl (by decide)

end KickOut
